import Mathlib

/-!
Shallow embedding of the reservation backend of `Sistema-Web`
(`backend/app/models.py`, `backend/app/schemas.py`, `backend/app/crud.py`,
`backend/app/routers/reservas.py`, `backend/app/routers/usuarios.py`).

Modelling conventions:
* `datetime` instants are modelled as `Int` (only their linear order matters
  to the reservation logic).
* `uuid.UUID` user identifiers are modelled as `Nat` (only equality matters).
* The persistent store (PostgreSQL, `database.py`) is one value of type
  `SysState`, holding the four tables of `models.py`.  A `session.commit()`
  makes the pending changes part of the state; `session.rollback()` discards
  changes not yet committed.  Each CRUD function therefore becomes a function
  `SysState → ... → Resultado × SysState`, where the returned state records
  exactly what the function had committed when it returned or raised.
* `HTTPException`s become the `Resultado.erro` constructors; the mapping of
  each constructor to the HTTP status raised by the code is noted at the
  constructor.
* The `TipoAmbiente` enum of `models.py` is a closed list of room-category
  strings with no logic attached; it is modelled as `String`.
* Store-level constraints declared in `models.py` and enforced by PostgreSQL
  (`database.py`): `Reserva.ambiente_id`/`Reserva.usuario_id` are foreign
  keys, and `HistoricoReserva.id` is a primary key.  A commit that violates
  one raises `IntegrityError`, which the CRUD functions catch; the embedding
  checks the constraint at the point of the corresponding commit.
-/

/-- Model of `TipoUsuario` from `models.py`: roles `user` and `admin`. -/
inductive TipoUsuario where
  | user
  | admin
deriving DecidableEq, Repr

/-- Model of `StatusReserva` from `models.py`. -/
inductive StatusReserva where
  | CONFIRMADA
  | PENDENTE
  | CANCELADA
  | FINALIZADA
deriving DecidableEq, Repr

/-- Model of `Usuario` from `models.py` (the UUID id is modelled as `Nat`). -/
structure Usuario where
  id : Nat
  nome : String
  email : String
  senha_hash : String
  tipo : TipoUsuario
  ativo : Bool
  data_criacao : Int
deriving DecidableEq, Repr

/-- Model of `Ambiente` from `models.py`.  Here `tipo_ambiente` is one of the fixed category
strings of the `TipoAmbiente` enum. -/
structure Ambiente where
  id : Nat
  nome : String
  capacidade : Int
  descricao : String
  tipo_ambiente : String
  ativo : Bool
  tv : Bool
  projetor : Bool
  ar_condicionado : Bool
deriving DecidableEq, Repr

/-- Model of `Reserva` from `models.py`.  The store assigns `id` from an increasing
sequence (PostgreSQL serial primary key). -/
structure Reserva where
  id : Nat
  ambiente_id : Nat
  usuario_id : Nat
  data_inicio : Int
  data_fim : Int
  data_criacao : Int
  status : StatusReserva
  motivo : String
deriving DecidableEq, Repr

/-- Model of `HistoricoReserva` from `models.py`: denormalized copy of an archived
reservation, keyed by the original reservation id. -/
structure HistoricoReserva where
  id : Nat
  ambiente_id : Nat
  nome_amb : String
  usuario_id : Nat
  nome_usu : String
  data_inicio : Int
  data_fim : Int
  data_criacao : Int
  status : StatusReserva
  motivo : String
deriving DecidableEq, Repr

/-- The persistent store: the four tables of `models.py` plus the id
sequence backing `Reserva.id`. -/
structure SysState where
  usuarios : List Usuario
  ambientes : List Ambiente
  reservas : List Reserva
  historico : List HistoricoReserva
  nextReservaId : Nat
deriving DecidableEq, Repr

/-- The typed failures of the API.  Each constructor corresponds to an
`HTTPException` raised by `crud.py` / `schemas.py`:
`naoEncontrado` 404, `proibido` 403, `conflito` 409,
`transicaoInvalida` 400 ("Não é possível confirmar uma reserva cancelada."),
`entradaInvalida` 422/400 (pydantic validation, duplicate e-mail),
`integridade` 500 with the duplicate-history log of
`mover_reserva_para_historico`, `interno` any other 500. -/
inductive ErroApi where
  | naoEncontrado
  | proibido
  | conflito
  | transicaoInvalida
  | entradaInvalida
  | integridade
  | interno
deriving DecidableEq, Repr

/-- Outcome of one request: success, or one of the typed failures. -/
inductive Resultado where
  | ok
  | erro (e : ErroApi)
deriving DecidableEq, Repr

/-- A status that blocks availability: `crud.py` line 664 scans only
reservations whose status is in `[StatusReserva.PENDENTE,
StatusReserva.CONFIRMADA]`. -/
def Bloqueante (r : Reserva) : Prop :=
  r.status = .PENDENTE ∨ r.status = .CONFIRMADA

instance (r : Reserva) : Decidable (Bloqueante r) := by
  unfold Bloqueante
  infer_instance

/-- One conjunct of the conflict scan of
`verificar_disponibilidade_ambiente` (`crud.py` lines 661-675): `r` is on
the requested environment, blocking, overlaps `[data_inicio, data_fim)`
(`Reserva.data_inicio < data_fim ∧ Reserva.data_fim > data_inicio`), and is
not the excluded reservation. -/
def conflita (r : Reserva) (ambiente_id : Nat) (data_inicio data_fim : Int)
    (reserva_id_excluir : Option Nat) : Bool :=
  r.ambiente_id == ambiente_id &&
  decide (Bloqueante r) &&
  decide (r.data_inicio < data_fim) &&
  decide (r.data_fim > data_inicio) &&
  (match reserva_id_excluir with
   | some e => r.id != e
   | none => true)

/-- Embedding of `verificar_disponibilidade_ambiente` (`crud.py` lines 628-682):
returns `false` when `data_inicio >= data_fim` (lines 650-655), otherwise
`true` iff no blocking reservation on the environment overlaps the
half-open interval, ignoring `reserva_id_excluir` when supplied
(lines 661-682). -/
def verificar_disponibilidade_ambiente (st : SysState) (ambiente_id : Nat)
    (data_inicio data_fim : Int) (reserva_id_excluir : Option Nat) : Bool :=
  if data_fim ≤ data_inicio then false
  else !(st.reservas.any fun r =>
    conflita r ambiente_id data_inicio data_fim reserva_id_excluir)

/-- Model of `ReservaCreate` from `schemas.py` (lines 244-247): the client payload of
`POST /reservas/`.  `usuario_id` is not part of the payload; the router
supplies it. -/
structure ReservaCreate where
  data_inicio : Int
  data_fim : Int
  motivo : String
  ambiente_id : Nat
deriving DecidableEq, Repr

/-- The `data_fim_depois_data_inicio` validator of `ReservaBase`
(`schemas.py` lines 235-239): a payload with `data_fim <= data_inicio` is
rejected by pydantic before the endpoint body runs. -/
def reservaCreateValida (rc : ReservaCreate) : Bool :=
  decide (rc.data_inicio < rc.data_fim)

/-- Embedding of `criar_reserva` from `crud.py` (lines 689-741), as invoked by
`POST /reservas/` (`routers/reservas.py` lines 100-140) with the holder id
already resolved by the router.  Steps, in source order:
1. pydantic validation of the `ReservaCreate` body (`schemas.py` 235-239);
2. `verificar_disponibilidade_ambiente` with no exclusion; on conflict the
   endpoint raises 409 and nothing is committed (`crud.py` 709-719);
3. insert of a new `Reserva` in `PENDENTE` status and `session.commit()`
   (`crud.py` 721-736); the commit raises `IntegrityError` when
   `ambiente_id` or the holder id violates a foreign key of `models.py`,
   which the `except` branch turns into a 500 after `session.rollback()`
   (`crud.py` 737-739).
`now` is the `datetime.now()` default of `Reserva.data_criacao`. -/
def criar_reserva (st : SysState) (rc : ReservaCreate)
    (usuario_id_para_reserva : Nat) (now : Int) : Resultado × SysState :=
  if !(reservaCreateValida rc) then (.erro .entradaInvalida, st)
  else if !(verificar_disponibilidade_ambiente st rc.ambiente_id
      rc.data_inicio rc.data_fim none) then (.erro .conflito, st)
  else if !(st.ambientes.any (fun a => a.id == rc.ambiente_id)) ||
      !(st.usuarios.any (fun u => u.id == usuario_id_para_reserva)) then
    (.erro .interno, st)
  else
    (.ok,
      { st with
        reservas := st.reservas ++
          [{ id := st.nextReservaId
             ambiente_id := rc.ambiente_id
             usuario_id := usuario_id_para_reserva
             data_inicio := rc.data_inicio
             data_fim := rc.data_fim
             data_criacao := now
             status := .PENDENTE
             motivo := rc.motivo }]
        nextReservaId := st.nextReservaId + 1 })

/-- Model of `ReservaUpdate` from `schemas.py` (lines 270-278): optional new values for
dates, reason and environment.  The schema has no `status` field, but
`crud.atualizar_reserva` still pops a `status` key defensively
(`crud.py` 886-888); the optional `status` component models a payload that
carries one anyway. -/
structure ReservaUpdate where
  data_inicio : Option Int
  data_fim : Option Int
  motivo : Option String
  ambiente_id : Option Nat
  status : Option StatusReserva
deriving DecidableEq, Repr

/-- Embedding of `update_data.get("data_inicio", reserva_existente.data_inicio)`
(`crud.py` line 905): the effective start used for the re-check. -/
def novoInicio (ru : ReservaUpdate) (r : Reserva) : Int :=
  ru.data_inicio.getD r.data_inicio

/-- Embedding of `update_data.get("data_fim", reserva_existente.data_fim)`
(`crud.py` line 906). -/
def novoFim (ru : ReservaUpdate) (r : Reserva) : Int :=
  ru.data_fim.getD r.data_fim

/-- Embedding of `update_data.get("ambiente_id", reserva_existente.ambiente_id)`
(`crud.py` line 907). -/
def novoAmbiente (ru : ReservaUpdate) (r : Reserva) : Nat :=
  ru.ambiente_id.getD r.ambiente_id

/-- Embedding of `dates_or_ambiente_changed` (`crud.py` lines 892-898): some of
`data_inicio`, `data_fim`, `ambiente_id` is present in the payload and
differs from the stored value. -/
def mudouDatasOuAmbiente (ru : ReservaUpdate) (r : Reserva) : Bool :=
  (match ru.data_inicio with
   | some v => v != r.data_inicio
   | none => false) ||
  (match ru.data_fim with
   | some v => v != r.data_fim
   | none => false) ||
  (match ru.ambiente_id with
   | some v => v != r.ambiente_id
   | none => false)

/-- The row update performed by `sqlmodel_update` + `session.commit()`:
the row whose primary key is `rid` is replaced by `r'`.  (`Reserva.id` is a
primary key, so at most one row matches.) -/
def replaceById (l : List Reserva) (rid : Nat) (r' : Reserva) : List Reserva :=
  l.map fun x => if x.id == rid then r' else x

/-- Embedding of `atualizar_reserva` from `crud.py` (lines 842-935), as invoked by
`PATCH /reservas/{id}` (`routers/reservas.py` lines 321-348, which first
resolves the reservation, raising 404).  Steps, in source order:
1. permission (`crud.py` 869-880): owner-and-`PENDENTE` or admin, else 403;
2. `update_data` with the `status` key popped (`crud.py` 882-888);
3. if dates or environment changed, availability re-check on the effective
   values excluding this reservation's id, else-conflict 409
   (`crud.py` 890-921);
4. `sqlmodel_update` + `session.commit()` (`crud.py` 923-933); a commit
   that violates the `ambiente.id` foreign key (environment changed to a
   missing id) raises `IntegrityError`, caught as a 500 after rollback. -/
def atualizar_reserva (st : SysState) (rid : Nat) (ru : ReservaUpdate)
    (current_user : Usuario) : Resultado × SysState :=
  match st.reservas.find? (fun r => r.id == rid) with
  | none => (.erro .naoEncontrado, st)
  | some r =>
    if !((r.usuario_id == current_user.id && r.status == .PENDENTE) ||
        current_user.tipo == .admin) then
      (.erro .proibido, st)
    else if mudouDatasOuAmbiente ru r &&
        !(verificar_disponibilidade_ambiente st (novoAmbiente ru r)
          (novoInicio ru r) (novoFim ru r) (some r.id)) then
      (.erro .conflito, st)
    else if (match ru.ambiente_id with
        | some v => v != r.ambiente_id &&
            !(st.ambientes.any (fun a => a.id == v))
        | none => false) then
      (.erro .interno, st)
    else
      (.ok,
        { st with
          reservas := replaceById st.reservas rid
            { r with
              data_inicio := novoInicio ru r
              data_fim := novoFim ru r
              ambiente_id := novoAmbiente ru r
              motivo := ru.motivo.getD r.motivo } })

/-- Embedding of `mover_reserva_para_historico` from `crud.py` (lines 1088-1151): builds a
`HistoricoReserva` that reuses the reservation's id and copies its fields,
resolving `reserva_original.ambiente.nome` and
`reserva_original.usuario.nome` through the relationships (`crud.py`
1106-1117); commits the insert, then deletes the original row and commits
again (1119-1135).  When a history row with that id already exists the
insert commit raises `IntegrityError`; the `except` branch rolls back, the
deletion is aborted, and a 500 is raised (1138-1144).  When a relationship
does not resolve the attribute access fails and the generic `except` branch
raises a 500 with nothing committed (1145-1148). -/
def mover_reserva_para_historico (st : SysState) (reserva_original : Reserva) :
    Resultado × SysState :=
  match st.ambientes.find? (fun a => a.id == reserva_original.ambiente_id),
      st.usuarios.find? (fun u => u.id == reserva_original.usuario_id) with
  | some amb, some usu =>
    let historico_entry : HistoricoReserva :=
      { id := reserva_original.id
        ambiente_id := reserva_original.ambiente_id
        nome_amb := amb.nome
        usuario_id := reserva_original.usuario_id
        nome_usu := usu.nome
        data_inicio := reserva_original.data_inicio
        data_fim := reserva_original.data_fim
        data_criacao := reserva_original.data_criacao
        status := reserva_original.status
        motivo := reserva_original.motivo }
    if st.historico.any (fun h => h.id == reserva_original.id) then
      (.erro .integridade, st)
    else
      (.ok,
        { st with
          historico := st.historico ++ [historico_entry]
          reservas := st.reservas.filter
            (fun x => !(x.id == reserva_original.id)) })
  | _, _ => (.erro .interno, st)

/-- Embedding of `atualizar_status_reserva` from `crud.py` (lines 938-1031).  Steps, in
source order:
1. `obter_reserva`, raising 404 (`crud.py` 967-968);
2. permission (`crud.py` 970-991): admin always; otherwise only the owner
   of a `PENDENTE` reservation requesting `CANCELADA`; else 403;
3. transition rule (`crud.py` 994-1000): `CANCELADA` to `CONFIRMADA` is
   rejected with 400;
4. the status field is set and `session.commit()` persists it
   (`crud.py` 1007-1014) — this commit happens before any archival;
5. if the new status is `FINALIZADA` or `CANCELADA`,
   `mover_reserva_para_historico` runs (`crud.py` 1016-1021); if it raises,
   the `except` branch calls `session.rollback()` and raises a generic 500
   (`crud.py` 1024-1028), but the rollback cannot undo the status commit of
   step 4, so the returned state keeps the new status. -/
def atualizar_status_reserva (st : SysState) (reserva_id : Nat)
    (novo_status : StatusReserva) (current_user : Usuario) :
    Resultado × SysState :=
  match st.reservas.find? (fun r => r.id == reserva_id) with
  | none => (.erro .naoEncontrado, st)
  | some r =>
    if !(current_user.tipo == .admin ||
        (r.usuario_id == current_user.id && r.status == .PENDENTE &&
          novo_status == .CANCELADA)) then
      (.erro .proibido, st)
    else if r.status == .CANCELADA && novo_status == .CONFIRMADA then
      (.erro .transicaoInvalida, st)
    else if novo_status == .FINALIZADA || novo_status == .CANCELADA then
      match mover_reserva_para_historico
          { st with
            reservas :=
              replaceById st.reservas reserva_id
                { r with status := novo_status } }
          { r with status := novo_status } with
      | (.ok, st2) => (.ok, st2)
      | (.erro _, st2) => (.erro .interno, st2)
    else
      (.ok,
        { st with
          reservas :=
            replaceById st.reservas reserva_id
              { r with status := novo_status } })

/-- Model of `UsuarioCreate` from `schemas.py` (lines 41-50): the registration payload
carries only name, e-mail and password — no role and no active flag. -/
structure UsuarioCreate where
  nome : String
  email : String
  senha : String
deriving DecidableEq, Repr

/-- Embedding of `criar_usuario` from `crud.py` (lines 36-102): rejects a duplicate e-mail
with 400, hashes the password, and inserts a `Usuario` whose `tipo` is
forced to `TipoUsuario.user` (`crud.py` line 74) and whose `ativo` field
takes the model default `True` (`models.py` line 38).  `hash_password` of
`security.py` is an external bcrypt primitive, passed as a parameter;
`novo_id` models the generated UUID and `now` the `datetime.now()`
default of `data_criacao`. -/
def criar_usuario (hash_password : String → String) (st : SysState)
    (uc : UsuarioCreate) (novo_id : Nat) (now : Int) : Resultado × SysState :=
  if st.usuarios.any (fun u => u.email == uc.email) then
    (.erro .entradaInvalida, st)
  else
    (.ok,
      { st with
        usuarios := st.usuarios ++
          [{ id := novo_id
             nome := uc.nome
             email := uc.email
             senha_hash := hash_password uc.senha
             tipo := .user
             ativo := true
             data_criacao := now }] })

/-- Two reservation intervals overlap in the half-open sense used by the
conflict scan. -/
def Sobrepoe (r1 r2 : Reserva) : Prop :=
  r1.data_inicio < r2.data_fim ∧ r2.data_inicio < r1.data_fim

instance (r1 r2 : Reserva) : Decidable (Sobrepoe r1 r2) := by
  unfold Sobrepoe
  infer_instance

/-- The scheduling invariant: no two distinct reservations that are both in
a blocking status on the same environment overlap. -/
def SemSobreposicao (st : SysState) : Prop :=
  ∀ r1 ∈ st.reservas, ∀ r2 ∈ st.reservas,
    r1.id ≠ r2.id → r1.ambiente_id = r2.ambiente_id →
    Bloqueante r1 → Bloqueante r2 → ¬ Sobrepoe r1 r2

instance (st : SysState) : Decidable (SemSobreposicao st) := by
  unfold SemSobreposicao
  infer_instance

/-- The inductive well-formedness invariant of the store, established by the
empty store and preserved by every reservation operation: ids come from the
sequence, are unique, and never collide with the history table; the
foreign keys of `models.py` resolve; every active reservation is in a
blocking status (terminal ones are archived away); and the scheduling
invariant holds. -/
structure WF (st : SysState) : Prop where
  idsLt : ∀ r ∈ st.reservas, r.id < st.nextReservaId
  idsNodup : (st.reservas.map (fun r => r.id)).Nodup
  histLt : ∀ h ∈ st.historico, h.id < st.nextReservaId
  fkAmb : ∀ r ∈ st.reservas, ∃ a ∈ st.ambientes, a.id = r.ambiente_id
  fkUsu : ∀ r ∈ st.reservas, ∃ u ∈ st.usuarios, u.id = r.usuario_id
  histDisj : ∀ r ∈ st.reservas, ∀ h ∈ st.historico, r.id ≠ h.id
  ativas : ∀ r ∈ st.reservas, Bloqueante r
  semSobre : SemSobreposicao st

/-- One sequential execution of a core reservation operation (create,
update fields, update status), with arbitrary request data. -/
inductive Passo : SysState → SysState → Prop where
  | criar (st : SysState) (rc : ReservaCreate) (uid : Nat) (now : Int) :
      Passo st (criar_reserva st rc uid now).2
  | atualizar (st : SysState) (rid : Nat) (ru : ReservaUpdate) (actor : Usuario) :
      Passo st (atualizar_reserva st rid ru actor).2
  | mudarStatus (st : SysState) (rid : Nat) (novo : StatusReserva) (actor : Usuario) :
      Passo st (atualizar_status_reserva st rid novo actor).2

/-- A store with no reservations and no history yet (users, environments
and the id sequence are arbitrary). -/
def EstadoInicial (st : SysState) : Prop :=
  st.reservas = [] ∧ st.historico = []

/-- States reachable from an initial store by sequences of the three core
reservation operations. -/
inductive Alcancavel : SysState → Prop where
  | inicial (st : SysState) : EstadoInicial st → Alcancavel st
  | passo (st st' : SysState) : Alcancavel st → Passo st st' → Alcancavel st'

/-- Fixture: an ordinary member (role `user`). -/
def usuarioMembro : Usuario :=
  { id := 10, nome := "Maria", email := "maria@ex.com", senha_hash := "h1",
    tipo := .user, ativo := true, data_criacao := 0 }

/-- Fixture: a second ordinary member. -/
def usuarioMembro2 : Usuario :=
  { id := 20, nome := "Joao", email := "joao@ex.com", senha_hash := "h2",
    tipo := .user, ativo := true, data_criacao := 0 }

/-- Fixture: an administrator. -/
def usuarioAdmin : Usuario :=
  { id := 99, nome := "Ana", email := "ana@ex.com", senha_hash := "h3",
    tipo := .admin, ativo := true, data_criacao := 0 }

/-- Fixture: an environment. -/
def ambienteLab : Ambiente :=
  { id := 1, nome := "Lab A", capacidade := 10, descricao := "d",
    tipo_ambiente := "sala", ativo := true, tv := true, projetor := true,
    ar_condicionado := true }

/-- Fixture: a second environment. -/
def ambienteLab2 : Ambiente :=
  { id := 2, nome := "Lab B", capacidade := 5, descricao := "d",
    tipo_ambiente := "ti", ativo := true, tv := false, projetor := false,
    ar_condicionado := false }

/-- Fixture: a store with users and environments but no reservations. -/
def estadoVazio : SysState :=
  { usuarios := [usuarioMembro, usuarioMembro2, usuarioAdmin],
    ambientes := [ambienteLab, ambienteLab2], reservas := [], historico := [],
    nextReservaId := 0 }

/-- Fixture: a create request for `ambienteLab`, interval `[100, 110)`. -/
def pedidoCriacao : ReservaCreate :=
  { data_inicio := 100, data_fim := 110, motivo := "aula", ambiente_id := 1 }

/-- Fixture: `estadoVazio` after one successful create. -/
def estadoUm : SysState := (criar_reserva estadoVazio pedidoCriacao 10 5).2

/-- Fixture: a store whose environment table is empty. -/
def estadoSemAmbiente : SysState :=
  { usuarios := [usuarioMembro], ambientes := [], reservas := [],
    historico := [], nextReservaId := 0 }

/-- Fixture: an already-cancelled reservation held by `usuarioMembro`. -/
def reservaCancelada : Reserva :=
  { id := 1, ambiente_id := 1, usuario_id := 10, data_inicio := 0,
    data_fim := 10, data_criacao := 0, status := .CANCELADA, motivo := "m" }

/-- Fixture: a store holding `reservaCancelada`. -/
def estadoComCancelada : SysState :=
  { usuarios := [usuarioMembro, usuarioAdmin], ambientes := [ambienteLab],
    reservas := [reservaCancelada], historico := [], nextReservaId := 2 }

/-- Fixture: a completed reservation awaiting archival. -/
def reservaFinalizada : Reserva :=
  { id := 3, ambiente_id := 1, usuario_id := 10, data_inicio := 0,
    data_fim := 10, data_criacao := 0, status := .FINALIZADA, motivo := "m" }

/-- Fixture: a store holding `reservaFinalizada` and an empty history. -/
def estadoArquivar : SysState :=
  { usuarios := [usuarioMembro], ambientes := [ambienteLab],
    reservas := [reservaFinalizada], historico := [], nextReservaId := 4 }

/-- Fixture: a pending reservation whose id already has a history row. -/
def reservaPendenteDupla : Reserva :=
  { id := 1, ambiente_id := 1, usuario_id := 10, data_inicio := 0,
    data_fim := 10, data_criacao := 0, status := .PENDENTE, motivo := "m" }

/-- Fixture: an old history row that shares its id with
`reservaPendenteDupla`. -/
def historicoAntigo : HistoricoReserva :=
  { id := 1, ambiente_id := 1, nome_amb := "Lab A", usuario_id := 10,
    nome_usu := "Maria", data_inicio := 0, data_fim := 10,
    data_criacao := 0, status := .FINALIZADA, motivo := "m" }

/-- Fixture: a store where history already contains the id of the active
reservation, so the archival insert violates the history primary key. -/
def estadoHistoricoDuplicado : SysState :=
  { usuarios := [usuarioMembro, usuarioAdmin], ambientes := [ambienteLab],
    reservas := [reservaPendenteDupla], historico := [historicoAntigo],
    nextReservaId := 2 }

/-- Fixture: a pending reservation of `usuarioMembro` on `ambienteLab`. -/
def reservaPendA : Reserva :=
  { id := 0, ambiente_id := 1, usuario_id := 10, data_inicio := 100,
    data_fim := 110, data_criacao := 0, status := .PENDENTE, motivo := "m" }

/-- Fixture: a confirmed reservation of `usuarioMembro2` on
`ambienteLab2`, same time window. -/
def reservaConfB : Reserva :=
  { id := 1, ambiente_id := 2, usuario_id := 20, data_inicio := 100,
    data_fim := 110, data_criacao := 0, status := .CONFIRMADA, motivo := "m" }

/-- Fixture: a store with the two reservations above. -/
def estadoDois : SysState :=
  { usuarios := [usuarioMembro, usuarioMembro2, usuarioAdmin],
    ambientes := [ambienteLab, ambienteLab2],
    reservas := [reservaPendA, reservaConfB], historico := [],
    nextReservaId := 2 }

/-- Fixture: an update payload moving a reservation to `ambienteLab2`. -/
def pedidoMudanca : ReservaUpdate :=
  { data_inicio := none, data_fim := none, motivo := none,
    ambiente_id := some 2, status := none }

theorem conflita_eq_true_iff (r : Reserva) (a : Nat) (ini fim : Int)
    (excl : Option Nat) :
    conflita r a ini fim excl = true ↔
      r.ambiente_id = a ∧ Bloqueante r ∧ r.data_inicio < fim ∧
        ini < r.data_fim ∧ (∀ e, excl = some e → r.id ≠ e) := by
  unfold conflita
  cases excl <;>
    simp [Bool.and_assoc, and_assoc, GT.gt, bne_iff_ne]

theorem verificar_eq_true_iff (st : SysState) (a : Nat) (ini fim : Int)
    (excl : Option Nat) :
    verificar_disponibilidade_ambiente st a ini fim excl = true ↔
      ini < fim ∧
      ∀ r ∈ st.reservas, r.ambiente_id = a → Bloqueante r →
        (∀ e, excl = some e → r.id ≠ e) →
        ¬(ini < r.data_fim ∧ r.data_inicio < fim) := by
  unfold verificar_disponibilidade_ambiente
  by_cases h : fim ≤ ini
  · simp only [h, if_true]
    constructor
    · intro hf
      exact absurd hf (by simp)
    · intro ⟨hlt, _⟩
      exact absurd hlt (not_lt.mpr h)
  · simp only [h, if_false]
    rw [Bool.not_eq_true']
    rw [List.any_eq_false]
    constructor
    · intro hall
      refine ⟨lt_of_not_ge h, ?_⟩
      intro r hr hamb hbloq hexcl hov
      have hc := hall r hr
      rw [conflita_eq_true_iff] at hc
      exact hc ⟨hamb, hbloq, hov.2, hov.1, hexcl⟩
    · intro ⟨_, hall⟩ r hr
      rw [conflita_eq_true_iff]
      intro ⟨hamb, hbloq, hio, hoi, hexcl⟩
      exact hall r hr hamb hbloq hexcl ⟨hoi, hio⟩

theorem find?_reserva_some {l : List Reserva} {rid : Nat} {r : Reserva}
    (h : l.find? (fun x => x.id == rid) = some r) : r ∈ l ∧ r.id = rid :=
  ⟨List.mem_of_find?_eq_some h, by
    have hp := List.find?_some h
    exact eq_of_beq hp⟩

theorem id_unico {l : List Reserva}
    (hnd : (l.map (fun r => r.id)).Nodup) :
    ∀ {x y : Reserva}, x ∈ l → y ∈ l → x.id = y.id → x = y := by
  induction l with
  | nil => intro x y hx _ _; cases hx
  | cons a t ih =>
    intro x y hx hy hid
    rw [List.map_cons, List.nodup_cons] at hnd
    obtain ⟨ha, hndt⟩ := hnd
    cases hx with
    | head =>
      cases hy with
      | head => rfl
      | tail _ hy' =>
        exact absurd (List.mem_map.mpr ⟨y, hy', hid.symm⟩) ha
    | tail _ hx' =>
      cases hy with
      | head =>
        exact absurd (List.mem_map.mpr ⟨x, hx', hid⟩) ha
      | tail _ hy' => exact ih hndt hx' hy' hid

theorem mem_replaceById {l : List Reserva} {rid : Nat} {r' : Reserva} {y : Reserva}
    (hy : y ∈ replaceById l rid r') :
    y = r' ∨ (y ∈ l ∧ y.id ≠ rid) := by
  unfold replaceById at hy
  obtain ⟨x, hx, hxy⟩ := List.mem_map.mp hy
  by_cases hc : (x.id == rid) = true
  · rw [if_pos hc] at hxy
    exact Or.inl hxy.symm
  · rw [if_neg hc] at hxy
    subst hxy
    exact Or.inr ⟨hx, fun h => hc (by simp [h])⟩

theorem replaceById_map_id {l : List Reserva} {rid : Nat} {r' : Reserva}
    (hid : r'.id = rid) :
    (replaceById l rid r').map (fun x => x.id) = l.map (fun x => x.id) := by
  unfold replaceById
  rw [List.map_map]
  apply List.map_congr_left
  intro x _
  by_cases hc : (x.id == rid) = true
  · simp only [Function.comp_apply, if_pos hc, hid]
    exact (eq_of_beq hc).symm
  · simp only [Function.comp_apply, if_neg hc]

theorem novosIguais_of_nao_mudou {ru : ReservaUpdate} {r : Reserva}
    (h : mudouDatasOuAmbiente ru r = false) :
    novoInicio ru r = r.data_inicio ∧ novoFim ru r = r.data_fim ∧
      novoAmbiente ru r = r.ambiente_id := by
  unfold mudouDatasOuAmbiente at h
  rw [Bool.or_eq_false_iff, Bool.or_eq_false_iff] at h
  obtain ⟨⟨h1, h2⟩, h3⟩ := h
  refine ⟨?_, ?_, ?_⟩
  · unfold novoInicio
    cases hdi : ru.data_inicio with
    | none => rfl
    | some v =>
      rw [hdi] at h1
      simp only [bne_eq_false_iff_eq] at h1
      simp [h1]
  · unfold novoFim
    cases hdf : ru.data_fim with
    | none => rfl
    | some v =>
      rw [hdf] at h2
      simp only [bne_eq_false_iff_eq] at h2
      simp [h2]
  · unfold novoAmbiente
    cases hai : ru.ambiente_id with
    | none => rfl
    | some v =>
      rw [hai] at h3
      simp only [bne_eq_false_iff_eq] at h3
      simp [h3]

theorem wf_inicial {st : SysState} (h : EstadoInicial st) : WF st := by
  obtain ⟨hr, hh⟩ := h
  refine ⟨?_, ?_, ?_, ?_, ?_, ?_, ?_, ?_⟩ <;>
    simp [hr, hh, SemSobreposicao]

theorem wf_criar (st : SysState) (hwf : WF st) (rc : ReservaCreate)
    (uid : Nat) (now : Int) : WF (criar_reserva st rc uid now).2 := by
  unfold criar_reserva
  by_cases h1 : (!reservaCreateValida rc) = true
  · rw [if_pos h1]
    exact hwf
  · rw [if_neg h1]
    by_cases h2 : (!(verificar_disponibilidade_ambiente st rc.ambiente_id
        rc.data_inicio rc.data_fim none)) = true
    · rw [if_pos h2]
      exact hwf
    · rw [if_neg h2]
      by_cases h3 : ((!(st.ambientes.any fun a => a.id == rc.ambiente_id)) ||
          (!(st.usuarios.any fun u => u.id == uid))) = true
      · rw [if_pos h3]
        exact hwf
      · rw [if_neg h3]
        simp only [Bool.not_eq_true, Bool.not_eq_false'] at h2
        simp only [Bool.or_eq_true, Bool.not_eq_true, not_or,
          Bool.not_eq_false'] at h3
        obtain ⟨hamb_ex, husu_ex⟩ := h3
        rw [verificar_eq_true_iff] at h2
        obtain ⟨hlt, hnoc⟩ := h2
        refine ⟨?_, ?_, ?_, ?_, ?_, ?_, ?_, ?_⟩
        · intro r hr
          rcases List.mem_append.mp hr with ho | hn
          · exact Nat.lt_succ_of_lt (hwf.idsLt r ho)
          · rw [List.mem_singleton.mp hn]
            exact Nat.lt_succ_self _
        · rw [List.map_append]
          refine List.Nodup.append hwf.idsNodup (List.nodup_singleton _) ?_
          intro x hx hx'
          obtain ⟨r, hr, hid⟩ := List.mem_map.mp hx
          rw [List.map_singleton, List.mem_singleton] at hx'
          rw [hx'] at hid
          exact absurd (hwf.idsLt r hr) (by rw [hid]; exact lt_irrefl _)
        · intro h hh
          exact Nat.lt_succ_of_lt (hwf.histLt h hh)
        · intro r hr
          rcases List.mem_append.mp hr with ho | hn
          · exact hwf.fkAmb r ho
          · rw [List.mem_singleton.mp hn]
            obtain ⟨a, ha, hida⟩ := List.any_eq_true.mp hamb_ex
            exact ⟨a, ha, eq_of_beq hida⟩
        · intro r hr
          rcases List.mem_append.mp hr with ho | hn
          · exact hwf.fkUsu r ho
          · rw [List.mem_singleton.mp hn]
            obtain ⟨u, hu, hidu⟩ := List.any_eq_true.mp husu_ex
            exact ⟨u, hu, eq_of_beq hidu⟩
        · intro r hr h hh
          rcases List.mem_append.mp hr with ho | hn
          · exact hwf.histDisj r ho h hh
          · rw [List.mem_singleton.mp hn]
            intro hEq
            exact absurd (hwf.histLt h hh) (by rw [← hEq]; exact lt_irrefl _)
        · intro r hr
          rcases List.mem_append.mp hr with ho | hn
          · exact hwf.ativas r ho
          · rw [List.mem_singleton.mp hn]
            exact Or.inl rfl
        · intro r1 hr1 r2 hr2 hne hamb hb1 hb2 hov
          rcases List.mem_append.mp hr1 with h1o | h1n <;>
            rcases List.mem_append.mp hr2 with h2o | h2n
          · exact hwf.semSobre r1 h1o r2 h2o hne hamb hb1 hb2 hov
          · rw [List.mem_singleton.mp h2n] at hne hamb hov
            have hno := hnoc r1 h1o hamb hb1
              (fun e he => Option.noConfusion he)
            exact hno ⟨hov.2, hov.1⟩
          · rw [List.mem_singleton.mp h1n] at hne hamb hov
            have hno := hnoc r2 h2o hamb.symm hb2
              (fun e he => Option.noConfusion he)
            exact hno ⟨hov.1, hov.2⟩
          · rw [List.mem_singleton.mp h1n, List.mem_singleton.mp h2n] at hne
            exact absurd rfl hne

theorem wf_replace {st : SysState} (hwf : WF st) {r rnew : Reserva}
    (hmem : r ∈ st.reservas)
    (hid : rnew.id = r.id)
    (husu : rnew.usuario_id = r.usuario_id)
    (hbloq : Bloqueante rnew)
    (hambfk : ∃ a ∈ st.ambientes, a.id = rnew.ambiente_id)
    (hsafe : ∀ y ∈ st.reservas, y.id ≠ r.id →
      y.ambiente_id = rnew.ambiente_id → Bloqueante y →
      ¬ Sobrepoe rnew y ∧ ¬ Sobrepoe y rnew) :
    WF { st with reservas := replaceById st.reservas r.id rnew } := by
  refine ⟨?_, ?_, ?_, ?_, ?_, ?_, ?_, ?_⟩
  · intro y hy
    rcases mem_replaceById hy with rfl | ⟨hyl, _⟩
    · rw [hid]
      exact hwf.idsLt r hmem
    · exact hwf.idsLt y hyl
  · rw [show ({ st with reservas := replaceById st.reservas r.id rnew } :
        SysState).reservas = replaceById st.reservas r.id rnew from rfl]
    rw [replaceById_map_id hid]
    exact hwf.idsNodup
  · exact hwf.histLt
  · intro y hy
    rcases mem_replaceById hy with rfl | ⟨hyl, _⟩
    · exact hambfk
    · exact hwf.fkAmb y hyl
  · intro y hy
    rcases mem_replaceById hy with rfl | ⟨hyl, _⟩
    · rw [husu]
      exact hwf.fkUsu r hmem
    · exact hwf.fkUsu y hyl
  · intro y hy h hh
    rcases mem_replaceById hy with rfl | ⟨hyl, _⟩
    · rw [hid]
      exact hwf.histDisj r hmem h hh
    · exact hwf.histDisj y hyl h hh
  · intro y hy
    rcases mem_replaceById hy with rfl | ⟨hyl, _⟩
    · exact hbloq
    · exact hwf.ativas y hyl
  · intro r1 h1 r2 h2 hne hamb hb1 hb2 hov
    rcases mem_replaceById h1 with rfl | ⟨h1l, h1id⟩ <;>
      rcases mem_replaceById h2 with h2n | ⟨h2l, h2id⟩
    · rw [h2n] at hne
      exact absurd rfl hne
    · exact (hsafe r2 h2l (fun hh => hne (hid.trans hh.symm))
        hamb.symm hb2).1 hov
    · rw [h2n] at hamb hov
      exact (hsafe r1 h1l h1id hamb hb1).2 hov
    · exact hwf.semSobre r1 h1l r2 h2l hne hamb hb1 hb2 hov

theorem filter_replaceById {l : List Reserva} {rid : Nat} {r' : Reserva}
    (h : r'.id = rid) :
    (replaceById l rid r').filter (fun x => !(x.id == rid)) =
      l.filter (fun x => !(x.id == rid)) := by
  induction l with
  | nil => rfl
  | cons a t ih =>
    unfold replaceById at ih ⊢
    rw [List.map_cons]
    by_cases hc : (a.id == rid) = true
    · rw [if_pos hc, List.filter_cons, List.filter_cons,
        if_neg (by simp [h]), if_neg (by simp [eq_of_beq hc])]
      exact ih
    · rw [if_neg hc, List.filter_cons, List.filter_cons, ih]

theorem mover_eq_ok {st : SysState} {r : Reserva}
    (hamb : ∃ a ∈ st.ambientes, a.id = r.ambiente_id)
    (husu : ∃ u ∈ st.usuarios, u.id = r.usuario_id)
    (hhist : ∀ h ∈ st.historico, r.id ≠ h.id) :
    ∃ amb ∈ st.ambientes, ∃ usu ∈ st.usuarios,
      amb.id = r.ambiente_id ∧ usu.id = r.usuario_id ∧
      mover_reserva_para_historico st r =
        (.ok,
          { st with
            historico := st.historico ++
              [{ id := r.id
                 ambiente_id := r.ambiente_id
                 nome_amb := amb.nome
                 usuario_id := r.usuario_id
                 nome_usu := usu.nome
                 data_inicio := r.data_inicio
                 data_fim := r.data_fim
                 data_criacao := r.data_criacao
                 status := r.status
                 motivo := r.motivo }]
            reservas := st.reservas.filter (fun x => !(x.id == r.id)) }) := by
  have h1 : (st.ambientes.find? (fun a => a.id == r.ambiente_id)).isSome := by
    rw [List.find?_isSome]
    obtain ⟨a, ha, hida⟩ := hamb
    exact ⟨a, ha, by simp [hida]⟩
  obtain ⟨amb, hambeq⟩ := Option.isSome_iff_exists.mp h1
  have h2 : (st.usuarios.find? (fun u => u.id == r.usuario_id)).isSome := by
    rw [List.find?_isSome]
    obtain ⟨u, hu, hidu⟩ := husu
    exact ⟨u, hu, by simp [hidu]⟩
  obtain ⟨usu, husueq⟩ := Option.isSome_iff_exists.mp h2
  have hany : (st.historico.any (fun h => h.id == r.id)) = false := by
    rw [List.any_eq_false]
    intro h hh
    intro hbe
    exact hhist h hh (eq_of_beq hbe).symm
  have hambid : amb.id = r.ambiente_id := by
    have hp := List.find?_some hambeq
    exact eq_of_beq hp
  have husuid : usu.id = r.usuario_id := by
    have hp := List.find?_some husueq
    exact eq_of_beq hp
  refine ⟨amb, List.mem_of_find?_eq_some hambeq, usu,
    List.mem_of_find?_eq_some husueq, hambid, husuid, ?_⟩
  unfold mover_reserva_para_historico
  rw [hambeq, husueq]
  simp only [hany, Bool.false_eq_true, if_false]

theorem fkAmb_efetivo {st : SysState} (hwf : WF st) {r : Reserva}
    (hmem : r ∈ st.reservas) {ru : ReservaUpdate}
    (hfk : ¬(match ru.ambiente_id with
      | some v => v != r.ambiente_id &&
          !(st.ambientes.any (fun a => a.id == v))
      | none => false) = true) :
    ∃ a ∈ st.ambientes, a.id = novoAmbiente ru r := by
  cases hai : ru.ambiente_id with
  | none =>
    unfold novoAmbiente
    rw [hai]
    exact hwf.fkAmb r hmem
  | some v =>
    unfold novoAmbiente
    rw [hai]
    simp only [Option.getD_some]
    rw [hai] at hfk
    by_cases hveq : v = r.ambiente_id
    · rw [hveq]
      exact hwf.fkAmb r hmem
    · have hany : (st.ambientes.any (fun a => a.id == v)) = true := by
        by_contra hany
        apply hfk
        have h1 : (v != r.ambiente_id) = true := by simp [hveq]
        have h2 : (!(st.ambientes.any (fun a => a.id == v))) = true := by
          revert hany
          cases st.ambientes.any (fun a => a.id == v) <;> simp
        show (v != r.ambiente_id &&
          !(st.ambientes.any (fun a => a.id == v))) = true
        rw [h1, h2]
        rfl
      obtain ⟨a, ha, hida⟩ := List.any_eq_true.mp hany
      exact ⟨a, ha, eq_of_beq hida⟩

theorem wf_atualizar (st : SysState) (hwf : WF st) (rid : Nat)
    (ru : ReservaUpdate) (actor : Usuario) :
    WF (atualizar_reserva st rid ru actor).2 := by
  unfold atualizar_reserva
  split
  · exact hwf
  · next r hfind =>
    obtain ⟨hmem, hrid⟩ := find?_reserva_some hfind
    split
    · exact hwf
    · next hperm =>
      split
      · exact hwf
      · next hconf =>
        split
        · exact hwf
        · next hfk =>
          rw [← hrid]
          refine wf_replace hwf hmem rfl rfl
            (hwf.ativas r hmem) (fkAmb_efetivo hwf hmem hfk) ?_
          intro y hy hyid hyamb hby
          have hyamb' : y.ambiente_id = novoAmbiente ru r := hyamb
          by_cases hmud : mudouDatasOuAmbiente ru r = true
          · have hver : verificar_disponibilidade_ambiente st
                (novoAmbiente ru r) (novoInicio ru r) (novoFim ru r)
                (some r.id) = true := by
              cases hv : verificar_disponibilidade_ambiente st
                  (novoAmbiente ru r) (novoInicio ru r) (novoFim ru r)
                  (some r.id) with
              | true => rfl
              | false =>
                apply absurd _ hconf
                rw [hmud, hv]
                rfl
            rw [verificar_eq_true_iff] at hver
            obtain ⟨_, hnoc⟩ := hver
            have hno := hnoc y hy hyamb' hby
              (fun e he => by cases he; exact hyid)
            constructor
            · intro hov
              have ho1 : novoInicio ru r < y.data_fim := hov.1
              have ho2 : y.data_inicio < novoFim ru r := hov.2
              exact hno ⟨ho1, ho2⟩
            · intro hov
              have ho1 : y.data_inicio < novoFim ru r := hov.1
              have ho2 : novoInicio ru r < y.data_fim := hov.2
              exact hno ⟨ho2, ho1⟩
          · have hmudf : mudouDatasOuAmbiente ru r = false := by
              revert hmud
              cases mudouDatasOuAmbiente ru r <;> simp
            obtain ⟨e1, e2, e3⟩ := novosIguais_of_nao_mudou hmudf
            rw [e3] at hyamb'
            have hs := hwf.semSobre r hmem y hy
              (fun hh => hyid hh.symm) hyamb'.symm
              (hwf.ativas r hmem) hby
            constructor
            · intro hov
              have ho1 : novoInicio ru r < y.data_fim := hov.1
              have ho2 : y.data_inicio < novoFim ru r := hov.2
              rw [e1] at ho1
              rw [e2] at ho2
              exact hs ⟨ho1, ho2⟩
            · intro hov
              have ho1 : y.data_inicio < novoFim ru r := hov.1
              have ho2 : novoInicio ru r < y.data_fim := hov.2
              rw [e1] at ho2
              rw [e2] at ho1
              exact hs ⟨ho2, ho1⟩

theorem wf_arquivado {st : SysState} (hwf : WF st) {r : Reserva}
    (hmem : r ∈ st.reservas) (novo : StatusReserva) (amb : Ambiente)
    (usu : Usuario) :
    WF { st with
      reservas := (replaceById st.reservas r.id
        { r with status := novo }).filter (fun x => !(x.id == r.id))
      historico := st.historico ++
        [{ id := r.id
           ambiente_id := r.ambiente_id
           nome_amb := amb.nome
           usuario_id := r.usuario_id
           nome_usu := usu.nome
           data_inicio := r.data_inicio
           data_fim := r.data_fim
           data_criacao := r.data_criacao
           status := novo
           motivo := r.motivo }] } := by
  have hres : (replaceById st.reservas r.id
      ({ r with status := novo } : Reserva)).filter (fun x => !(x.id == r.id)) =
      st.reservas.filter (fun x => !(x.id == r.id)) := filter_replaceById rfl
  rw [hres]
  have hmemf : ∀ y, y ∈ st.reservas.filter (fun x => !(x.id == r.id)) →
      y ∈ st.reservas ∧ y.id ≠ r.id := by
    intro y hy
    obtain ⟨hyl, hyp⟩ := List.mem_filter.mp hy
    refine ⟨hyl, ?_⟩
    intro hh
    simp [hh] at hyp
  refine ⟨?_, ?_, ?_, ?_, ?_, ?_, ?_, ?_⟩
  · intro y hy
    exact hwf.idsLt y (hmemf y hy).1
  · have hsub : ((st.reservas.filter (fun x => !(x.id == r.id))).map
        (fun x => x.id)).Sublist (st.reservas.map (fun x => x.id)) :=
      (List.filter_sublist _).map _
    exact List.Nodup.sublist hsub hwf.idsNodup
  · intro h hh
    rcases List.mem_append.mp hh with ho | hn
    · exact hwf.histLt h ho
    · rw [List.mem_singleton.mp hn]
      exact hwf.idsLt r hmem
  · intro y hy
    exact hwf.fkAmb y (hmemf y hy).1
  · intro y hy
    exact hwf.fkUsu y (hmemf y hy).1
  · intro y hy h hh
    rcases List.mem_append.mp hh with ho | hn
    · exact hwf.histDisj y (hmemf y hy).1 h ho
    · rw [List.mem_singleton.mp hn]
      exact (hmemf y hy).2
  · intro y hy
    exact hwf.ativas y (hmemf y hy).1
  · intro r1 h1 r2 h2 hne hamb hb1 hb2 hov
    exact hwf.semSobre r1 (hmemf r1 h1).1 r2 (hmemf r2 h2).1
      hne hamb hb1 hb2 hov

theorem wf_mudarStatus (st : SysState) (hwf : WF st) (rid : Nat)
    (novo : StatusReserva) (actor : Usuario) :
    WF (atualizar_status_reserva st rid novo actor).2 := by
  unfold atualizar_status_reserva
  split
  · exact hwf
  · next r hfind =>
    obtain ⟨hmem, hrid⟩ := find?_reserva_some hfind
    split
    · exact hwf
    · next hperm =>
      split
      · exact hwf
      · next htrans =>
        split
        · next hterm =>
          rw [← hrid]
          have hA : ∃ a ∈ st.ambientes,
              a.id = ({ r with status := novo } : Reserva).ambiente_id :=
            hwf.fkAmb r hmem
          have hU : ∃ u ∈ st.usuarios,
              u.id = ({ r with status := novo } : Reserva).usuario_id :=
            hwf.fkUsu r hmem
          have hH : ∀ h ∈ st.historico,
              ({ r with status := novo } : Reserva).id ≠ h.id :=
            hwf.histDisj r hmem
          obtain ⟨amb, hambmem, usu, husumem, hambid, husuid, hmov⟩ :=
            @mover_eq_ok
              { st with
                reservas :=
                  replaceById st.reservas r.id
                    { r with status := novo } }
              { r with status := novo } hA hU hH
          rw [hmov]
          exact wf_arquivado hwf hmem novo amb usu
        · next hterm =>
          rw [← hrid]
          have hbloq : Bloqueante ({ r with status := novo } : Reserva) := by
            unfold Bloqueante
            cases novo with
            | CONFIRMADA => exact Or.inr rfl
            | PENDENTE => exact Or.inl rfl
            | CANCELADA => exact absurd (by decide) hterm
            | FINALIZADA => exact absurd (by decide) hterm
          refine wf_replace hwf hmem rfl rfl hbloq (hwf.fkAmb r hmem) ?_
          intro y hy hyid hyamb hby
          have hyamb' : y.ambiente_id = r.ambiente_id := hyamb
          have hs := hwf.semSobre r hmem y hy
            (fun hh => hyid hh.symm) hyamb'.symm
            (hwf.ativas r hmem) hby
          constructor
          · intro hov
            have ho1 : r.data_inicio < y.data_fim := hov.1
            have ho2 : y.data_inicio < r.data_fim := hov.2
            exact hs ⟨ho1, ho2⟩
          · intro hov
            have ho1 : y.data_inicio < r.data_fim := hov.1
            have ho2 : r.data_inicio < y.data_fim := hov.2
            exact hs ⟨ho2, ho1⟩

theorem wf_passo {st st' : SysState} (hwf : WF st) (h : Passo st st') :
    WF st' := by
  cases h with
  | criar rc uid now => exact wf_criar st hwf rc uid now
  | atualizar rid ru actor => exact wf_atualizar st hwf rid ru actor
  | mudarStatus rid novo actor => exact wf_mudarStatus st hwf rid novo actor

theorem wf_alcancavel {st : SysState} (h : Alcancavel st) : WF st := by
  induction h with
  | inicial st h0 => exact wf_inicial h0
  | passo st st' _ hp ih => exact wf_passo ih hp

/-- C1.  For every environment and every state reachable by any sequence of
the core operations (create reservation, update reservation fields, update
reservation status) executed sequentially, no two distinct reservations
that are both in status pending or confirmed on that same environment have
overlapping half-open intervals `[start, end)`. -/
theorem C1_invariante_sem_sobreposicao {st : SysState}
    (h : Alcancavel st) : SemSobreposicao st :=
  (wf_alcancavel h).semSobre

/-- Witness for C1 at a concrete reachable state holding one reservation. -/
theorem C1_invariante_sem_sobreposicao_testemunha :
    SemSobreposicao estadoUm :=
  C1_invariante_sem_sobreposicao
    (Alcancavel.passo estadoVazio estadoUm
      (Alcancavel.inicial estadoVazio ⟨rfl, rfl⟩)
      (Passo.criar estadoVazio pedidoCriacao 10 5))

/-- C2.  The availability check returns true iff `start < end` and no
blocking (pending/confirmed) reservation on the environment, other than the
optionally excluded one, has an interval `[s, e)` with `start < e` and
`s < end`; in particular it returns false (rather than raising) when
`start ≥ end`, and a check with the exact interval of an existing blocking
reservation on the same environment (no exclusion) returns false. -/
theorem C2_disponibilidade_caracterizacao (st : SysState) (a : Nat)
    (ini fim : Int) (excl : Option Nat) :
    (verificar_disponibilidade_ambiente st a ini fim excl = true ↔
      ini < fim ∧
      ∀ r ∈ st.reservas, r.ambiente_id = a → Bloqueante r →
        (∀ e, excl = some e → r.id ≠ e) →
        ¬(ini < r.data_fim ∧ r.data_inicio < fim)) ∧
    (fim ≤ ini → verificar_disponibilidade_ambiente st a ini fim excl = false) ∧
    (∀ r ∈ st.reservas, r.ambiente_id = a → Bloqueante r →
      verificar_disponibilidade_ambiente st a r.data_inicio r.data_fim none =
        false) := by
  refine ⟨verificar_eq_true_iff st a ini fim excl, ?_, ?_⟩
  · intro h
    unfold verificar_disponibilidade_ambiente
    rw [if_pos h]
  · intro r hr hamb hbloq
    cases hv : verificar_disponibilidade_ambiente st a r.data_inicio
        r.data_fim none with
    | false => rfl
    | true =>
      exfalso
      rw [verificar_eq_true_iff] at hv
      obtain ⟨hlt, hall⟩ := hv
      exact hall r hr hamb hbloq (fun e he => Option.noConfusion he)
        ⟨hlt, hlt⟩

/-- C3 counterexample: a create request with a valid interval and no
overlapping reservation at all, but whose environment id does not resolve.
The claim says such a request inserts one pending reservation; the code
fails on the `ambiente.id` foreign key at commit (500) and persists no
row. -/
theorem C3_contraexemplo :
    pedidoCriacao.data_inicio < pedidoCriacao.data_fim ∧
    estadoSemAmbiente.reservas = [] ∧
    (criar_reserva estadoSemAmbiente pedidoCriacao 10 0).1 ≠ .ok ∧
    (criar_reserva estadoSemAmbiente pedidoCriacao 10 0).2.reservas = [] := by
  decide

/-- C3 (amended).  A create with `start ≥ end` fails with `InvalidInput`
and persists nothing; with a valid interval, a blocking overlap on the
requested environment fails with `Conflict` and no mutation; otherwise —
provided the referenced environment and holder exist in the store — exactly
one new reservation is inserted, in `PENDENTE` status, for the target
holder. -/
theorem C3_criar_reserva_casos (st : SysState) (rc : ReservaCreate)
    (uid : Nat) (now : Int) :
    (rc.data_fim ≤ rc.data_inicio →
      criar_reserva st rc uid now = (.erro .entradaInvalida, st)) ∧
    (rc.data_inicio < rc.data_fim →
      (∃ r ∈ st.reservas, r.ambiente_id = rc.ambiente_id ∧ Bloqueante r ∧
        rc.data_inicio < r.data_fim ∧ r.data_inicio < rc.data_fim) →
      criar_reserva st rc uid now = (.erro .conflito, st)) ∧
    (rc.data_inicio < rc.data_fim →
      (∀ r ∈ st.reservas, r.ambiente_id = rc.ambiente_id → Bloqueante r →
        ¬(rc.data_inicio < r.data_fim ∧ r.data_inicio < rc.data_fim)) →
      (∃ a ∈ st.ambientes, a.id = rc.ambiente_id) →
      (∃ u ∈ st.usuarios, u.id = uid) →
      criar_reserva st rc uid now =
        (.ok,
          { st with
            reservas := st.reservas ++
              [{ id := st.nextReservaId
                 ambiente_id := rc.ambiente_id
                 usuario_id := uid
                 data_inicio := rc.data_inicio
                 data_fim := rc.data_fim
                 data_criacao := now
                 status := .PENDENTE
                 motivo := rc.motivo }]
            nextReservaId := st.nextReservaId + 1 })) := by
  refine ⟨?_, ?_, ?_⟩
  · intro hle
    unfold criar_reserva
    rw [if_pos]
    unfold reservaCreateValida
    simp [not_lt.mpr hle]
  · intro hlt hex
    unfold criar_reserva
    rw [if_neg (by unfold reservaCreateValida; simp [hlt])]
    rw [if_pos]
    have hv : verificar_disponibilidade_ambiente st rc.ambiente_id
        rc.data_inicio rc.data_fim none = false := by
      cases hv : verificar_disponibilidade_ambiente st rc.ambiente_id
          rc.data_inicio rc.data_fim none with
      | false => rfl
      | true =>
        exfalso
        rw [verificar_eq_true_iff] at hv
        obtain ⟨r, hr, hamb, hbloq, h1, h2⟩ := hex
        exact hv.2 r hr hamb hbloq (fun e he => Option.noConfusion he)
          ⟨h1, h2⟩
    rw [hv]
    rfl
  · intro hlt hall hamb husu
    unfold criar_reserva
    rw [if_neg (by unfold reservaCreateValida; simp [hlt])]
    have hv : verificar_disponibilidade_ambiente st rc.ambiente_id
        rc.data_inicio rc.data_fim none = true := by
      rw [verificar_eq_true_iff]
      exact ⟨hlt, fun r hr ha hb _ => hall r hr ha hb⟩
    rw [if_neg (by rw [hv]; simp)]
    have ha : (st.ambientes.any fun a => a.id == rc.ambiente_id) = true := by
      rw [List.any_eq_true]
      obtain ⟨a, haa, hai⟩ := hamb
      exact ⟨a, haa, by simp [hai]⟩
    have hu : (st.usuarios.any fun u => u.id == uid) = true := by
      rw [List.any_eq_true]
      obtain ⟨u, huu, hui⟩ := husu
      exact ⟨u, huu, by simp [hui]⟩
    rw [if_neg (by rw [ha, hu]; simp)]

/-- Witness for C3's success clause at a concrete store. -/
theorem C3_criar_reserva_casos_testemunha :
    criar_reserva estadoVazio pedidoCriacao 10 5 =
      (.ok,
        { estadoVazio with
          reservas := estadoVazio.reservas ++
            [{ id := estadoVazio.nextReservaId
               ambiente_id := pedidoCriacao.ambiente_id
               usuario_id := 10
               data_inicio := pedidoCriacao.data_inicio
               data_fim := pedidoCriacao.data_fim
               data_criacao := 5
               status := .PENDENTE
               motivo := pedidoCriacao.motivo }]
          nextReservaId := estadoVazio.nextReservaId + 1 }) :=
  (C3_criar_reserva_casos estadoVazio pedidoCriacao 10 5).2.2 (by decide)
    (by decide) (by decide) (by decide)

theorem status_admin_nao_proibido {st : SysState} {rid : Nat}
    {novo : StatusReserva} {actor : Usuario} {r : Reserva}
    (hfind : st.reservas.find? (fun x => x.id == rid) = some r)
    (hadm : actor.tipo = .admin)
    (hnt : ¬(r.status = .CANCELADA ∧ novo = .CONFIRMADA)) :
    (atualizar_status_reserva st rid novo actor).1 ≠ .erro .proibido ∧
    (atualizar_status_reserva st rid novo actor).1 ≠
      .erro .transicaoInvalida := by
  unfold atualizar_status_reserva
  split
  · next hnone =>
    rw [hnone] at hfind
    cases hfind
  · next r' hfind' =>
    rw [hfind'] at hfind
    injection hfind with hrr
    subst hrr
    split
    · next hc =>
      exfalso
      rw [hadm] at hc
      simp at hc
    · next hc =>
      split
      · next ht =>
        exfalso
        rw [Bool.and_eq_true] at ht
        exact hnt ⟨eq_of_beq ht.1, eq_of_beq ht.2⟩
      · next ht =>
        split
        · cases hm : mover_reserva_para_historico
              { st with
                reservas :=
                  replaceById st.reservas rid
                    { r' with status := novo } }
              { r' with status := novo } with
          | mk res st2 =>
            cases res with
            | ok =>
              exact ⟨fun h => Resultado.noConfusion h,
                fun h => Resultado.noConfusion h⟩
            | erro e =>
              refine ⟨fun h => ?_, fun h => ?_⟩ <;>
                exact ErroApi.noConfusion (Resultado.erro.inj h)
        · exact ⟨fun h => Resultado.noConfusion h,
            fun h => Resultado.noConfusion h⟩

theorem status_membro_negado {st : SysState} {rid : Nat}
    {novo : StatusReserva} {actor : Usuario} {r : Reserva}
    (hfind : st.reservas.find? (fun x => x.id == rid) = some r)
    (hna : actor.tipo ≠ .admin)
    (hno : ¬(r.usuario_id = actor.id ∧ r.status = .PENDENTE ∧
      novo = .CANCELADA)) :
    atualizar_status_reserva st rid novo actor = (.erro .proibido, st) := by
  unfold atualizar_status_reserva
  split
  · next hnone =>
    rw [hnone] at hfind
    cases hfind
  · next r' hfind' =>
    rw [hfind'] at hfind
    injection hfind with hrr
    subst hrr
    have h1 : (actor.tipo == TipoUsuario.admin) = false := by
      cases h : actor.tipo with
      | user => decide
      | admin => exact absurd h hna
    have h2 : (r'.usuario_id == actor.id && r'.status == StatusReserva.PENDENTE &&
        novo == StatusReserva.CANCELADA) = false := by
      cases hb : (r'.usuario_id == actor.id &&
          r'.status == StatusReserva.PENDENTE &&
          novo == StatusReserva.CANCELADA) with
      | false => rfl
      | true =>
        exfalso
        rw [Bool.and_eq_true, Bool.and_eq_true] at hb
        exact hno ⟨eq_of_beq hb.1.1, eq_of_beq hb.1.2, eq_of_beq hb.2⟩
    rw [if_pos (by rw [h1, h2]; rfl)]

theorem status_membro_cancela {st : SysState} {rid : Nat} {actor : Usuario}
    {r : Reserva} (hwf : WF st)
    (hfind : st.reservas.find? (fun x => x.id == rid) = some r)
    (hown : r.usuario_id = actor.id) (hpend : r.status = .PENDENTE) :
    (atualizar_status_reserva st rid .CANCELADA actor).1 = .ok ∧
    ((atualizar_status_reserva st rid .CANCELADA actor).2.historico.any
      (fun h => h.id == rid)) = true ∧
    ((atualizar_status_reserva st rid .CANCELADA actor).2.reservas.any
      (fun x => x.id == rid)) = false := by
  obtain ⟨hmem, hrid⟩ := find?_reserva_some hfind
  unfold atualizar_status_reserva
  split
  · next hnone =>
    rw [hnone] at hfind
    cases hfind
  · next r' hfind' =>
    rw [hfind'] at hfind
    injection hfind with hrr
    subst hrr
    rw [if_neg (by simp [hown, hpend])]
    rw [if_neg (by simp [hpend])]
    rw [if_pos (by decide)]
    rw [← hrid]
    have hA : ∃ a ∈ st.ambientes,
        a.id = ({ r' with status := .CANCELADA } : Reserva).ambiente_id :=
      hwf.fkAmb r' hmem
    have hU : ∃ u ∈ st.usuarios,
        u.id = ({ r' with status := .CANCELADA } : Reserva).usuario_id :=
      hwf.fkUsu r' hmem
    have hH : ∀ h ∈ st.historico,
        ({ r' with status := .CANCELADA } : Reserva).id ≠ h.id :=
      hwf.histDisj r' hmem
    obtain ⟨amb, hambmem, usu, husumem, hambid, husuid, hmov⟩ :=
      @mover_eq_ok
        { st with
          reservas :=
            replaceById st.reservas r'.id
              { r' with status := .CANCELADA } }
        { r' with status := .CANCELADA } hA hU hH
    rw [hmov]
    refine ⟨rfl, ?_, ?_⟩
    · rw [List.any_eq_true]
      refine ⟨{ id := r'.id
                ambiente_id := r'.ambiente_id
                nome_amb := amb.nome
                usuario_id := r'.usuario_id
                nome_usu := usu.nome
                data_inicio := r'.data_inicio
                data_fim := r'.data_fim
                data_criacao := r'.data_criacao
                status := .CANCELADA
                motivo := r'.motivo }, ?_, by simp⟩
      exact List.mem_append_right _ (List.mem_singleton.mpr rfl)
    · rw [List.any_eq_false]
      intro x hx
      obtain ⟨hxl, hxp⟩ := List.mem_filter.mp hx
      have hxp' : (!(x.id == r'.id)) = true := hxp
      simp only [Bool.not_eq_true'] at hxp'
      intro hxe
      rw [hxp'] at hxe
      cases hxe

/-- C4.  For a status-update request on an existing reservation: an
administrator is never refused for permission, and is refused for the
transition rule only on `cancelled → confirmed`; a non-administrator is
allowed only as the holder of a `PENDENTE` reservation requesting
`CANCELADA` — every other non-administrator request fails with `Forbidden`
and leaves the store unchanged; and, on a well-formed store, a member
cancelling their own pending reservation succeeds, after which the id
appears in the history table and no longer among active reservations. -/
theorem C4_permissoes_status (st : SysState) (rid : Nat)
    (novo : StatusReserva) (actor : Usuario) (r : Reserva)
    (hfind : st.reservas.find? (fun x => x.id == rid) = some r) :
    (actor.tipo = .admin →
      ¬(r.status = .CANCELADA ∧ novo = .CONFIRMADA) →
      (atualizar_status_reserva st rid novo actor).1 ≠ .erro .proibido ∧
      (atualizar_status_reserva st rid novo actor).1 ≠
        .erro .transicaoInvalida) ∧
    (actor.tipo ≠ .admin →
      ¬(r.usuario_id = actor.id ∧ r.status = .PENDENTE ∧
        novo = .CANCELADA) →
      atualizar_status_reserva st rid novo actor = (.erro .proibido, st)) ∧
    (WF st → r.usuario_id = actor.id → r.status = .PENDENTE →
      novo = .CANCELADA →
      (atualizar_status_reserva st rid novo actor).1 = .ok ∧
      ((atualizar_status_reserva st rid novo actor).2.historico.any
        (fun h => h.id == rid)) = true ∧
      ((atualizar_status_reserva st rid novo actor).2.reservas.any
        (fun x => x.id == rid)) = false) := by
  refine ⟨fun hadm hnt => status_admin_nao_proibido hfind hadm hnt,
    fun hna hno => status_membro_negado hfind hna hno,
    fun hwf hown hpend hcanc => ?_⟩
  subst hcanc
  exact status_membro_cancela hwf hfind hown hpend

/-- Witness for C4's member-cancel clause at a concrete store. -/
theorem C4_permissoes_status_testemunha :
    (atualizar_status_reserva estadoUm 0 .CANCELADA usuarioMembro).1 = .ok ∧
    ((atualizar_status_reserva estadoUm 0 .CANCELADA
      usuarioMembro).2.historico.any (fun h => h.id == 0)) = true ∧
    ((atualizar_status_reserva estadoUm 0 .CANCELADA
      usuarioMembro).2.reservas.any (fun x => x.id == 0)) = false :=
  (C4_permissoes_status estadoUm 0 .CANCELADA usuarioMembro
      { id := 0, ambiente_id := 1, usuario_id := 10, data_inicio := 100,
        data_fim := 110, data_criacao := 5, status := .PENDENTE,
        motivo := "aula" }
      (by decide)).2.2
    (wf_passo (wf_inicial ⟨rfl, rfl⟩)
      (Passo.criar estadoVazio pedidoCriacao 10 5))
    (by decide) (by decide) rfl

/-- C5 counterexample: the holder (an ordinary member) requests
`cancelled → confirmed`.  The claim says this fails with
`InvalidTransition` regardless of actor role; the code checks permission
first, so the member is refused with `Forbidden` instead. -/
theorem C5_contraexemplo :
    (atualizar_status_reserva estadoComCancelada 1 .CONFIRMADA
      usuarioMembro).1 ≠ .erro .transicaoInvalida ∧
    (atualizar_status_reserva estadoComCancelada 1 .CONFIRMADA
      usuarioMembro).1 = .erro .proibido := by
  decide

/-- C5 (amended).  A status update of a cancelled reservation to confirmed
always fails and leaves the store unchanged; an administrator fails with
`InvalidTransition`, while a non-administrator fails with `Forbidden`
because the permission check runs first. -/
theorem C5_cancelada_nao_confirma (st : SysState) (rid : Nat)
    (actor : Usuario) (r : Reserva)
    (hfind : st.reservas.find? (fun x => x.id == rid) = some r)
    (hcanc : r.status = .CANCELADA) :
    (atualizar_status_reserva st rid .CONFIRMADA actor).2 = st ∧
    (actor.tipo = .admin →
      (atualizar_status_reserva st rid .CONFIRMADA actor).1 =
        .erro .transicaoInvalida) ∧
    (actor.tipo ≠ .admin →
      (atualizar_status_reserva st rid .CONFIRMADA actor).1 =
        .erro .proibido) := by
  by_cases hadm : actor.tipo = .admin
  · have heq : atualizar_status_reserva st rid .CONFIRMADA actor =
        (.erro .transicaoInvalida, st) := by
      unfold atualizar_status_reserva
      split
      · next hnone =>
        rw [hnone] at hfind
        cases hfind
      · next r' hfind' =>
        rw [hfind'] at hfind
        injection hfind with hrr
        subst hrr
        rw [if_neg (by rw [hadm]; simp)]
        rw [if_pos (by rw [hcanc]; rfl)]
    rw [heq]
    exact ⟨rfl, fun _ => rfl, fun hna => absurd hadm hna⟩
  · have heq : atualizar_status_reserva st rid .CONFIRMADA actor =
        (.erro .proibido, st) :=
      status_membro_negado hfind hadm
        (fun hno => StatusReserva.noConfusion hno.2.2)
    rw [heq]
    exact ⟨rfl, fun ha => absurd ha hadm, fun _ => rfl⟩

/-- Witness for C5 (amended) with an administrator actor. -/
theorem C5_cancelada_nao_confirma_testemunha :
    (atualizar_status_reserva estadoComCancelada 1 .CONFIRMADA
      usuarioAdmin).2 = estadoComCancelada ∧
    (atualizar_status_reserva estadoComCancelada 1 .CONFIRMADA
      usuarioAdmin).1 = .erro .transicaoInvalida :=
  have h := C5_cancelada_nao_confirma estadoComCancelada 1 usuarioAdmin
    reservaCancelada (by decide) rfl
  ⟨h.1, h.2.1 rfl⟩

/-- C6.  Archiving a reservation in a terminal status removes it from the
active set and appends exactly one history record with the same id,
copying environment id, holder id, the resolved environment and user
names, the original instants, the final status and the reason; a second
archival of the same id fails cleanly, adding no second row and
overwriting nothing. -/
theorem C6_arquivamento (st : SysState) (r : Reserva) (amb : Ambiente)
    (usu : Usuario)
    (_tterm : r.status = .CANCELADA ∨ r.status = .FINALIZADA)
    (hamb : st.ambientes.find? (fun a => a.id == r.ambiente_id) = some amb)
    (husu : st.usuarios.find? (fun u => u.id == r.usuario_id) = some usu) :
    ((∀ h ∈ st.historico, h.id ≠ r.id) →
      (mover_reserva_para_historico st r).1 = .ok ∧
      (∀ x, x ∈ (mover_reserva_para_historico st r).2.reservas ↔
        (x ∈ st.reservas ∧ x.id ≠ r.id)) ∧
      (mover_reserva_para_historico st r).2.historico =
        st.historico ++
          [{ id := r.id
             ambiente_id := r.ambiente_id
             nome_amb := amb.nome
             usuario_id := r.usuario_id
             nome_usu := usu.nome
             data_inicio := r.data_inicio
             data_fim := r.data_fim
             data_criacao := r.data_criacao
             status := r.status
             motivo := r.motivo }]) ∧
    ((∃ h ∈ st.historico, h.id = r.id) →
      mover_reserva_para_historico st r = (.erro .integridade, st)) := by
  constructor
  · intro hh
    have hany : (st.historico.any (fun h => h.id == r.id)) = false := by
      rw [List.any_eq_false]
      intro h hmemb hbe
      exact hh h hmemb (eq_of_beq hbe)
    have heq : mover_reserva_para_historico st r =
        (.ok,
          { st with
            historico := st.historico ++
              [{ id := r.id
                 ambiente_id := r.ambiente_id
                 nome_amb := amb.nome
                 usuario_id := r.usuario_id
                 nome_usu := usu.nome
                 data_inicio := r.data_inicio
                 data_fim := r.data_fim
                 data_criacao := r.data_criacao
                 status := r.status
                 motivo := r.motivo }]
            reservas := st.reservas.filter
              (fun x => !(x.id == r.id)) }) := by
      unfold mover_reserva_para_historico
      rw [hamb, husu]
      simp only [hany, Bool.false_eq_true, if_false]
    refine ⟨by rw [heq], ?_, by rw [heq]⟩
    intro x
    rw [heq]
    show x ∈ st.reservas.filter (fun x => !(x.id == r.id)) ↔ _
    rw [List.mem_filter]
    constructor
    · rintro ⟨h1, h2⟩
      refine ⟨h1, ?_⟩
      simp only [Bool.not_eq_true'] at h2
      intro he
      rw [he] at h2
      simp at h2
    · rintro ⟨h1, h2⟩
      refine ⟨h1, ?_⟩
      simp [h2]
  · rintro ⟨h, hmemb, hid⟩
    have hany : (st.historico.any (fun h => h.id == r.id)) = true := by
      rw [List.any_eq_true]
      exact ⟨h, hmemb, by simp [hid]⟩
    unfold mover_reserva_para_historico
    rw [hamb, husu]
    simp only [hany, if_true]

/-- Witness for C6's success clause at a concrete store. -/
theorem C6_arquivamento_testemunha :
    (mover_reserva_para_historico estadoArquivar reservaFinalizada).1 =
      .ok ∧
    (∀ x, x ∈ (mover_reserva_para_historico estadoArquivar
        reservaFinalizada).2.reservas ↔
      (x ∈ estadoArquivar.reservas ∧ x.id ≠ reservaFinalizada.id)) ∧
    (mover_reserva_para_historico estadoArquivar
        reservaFinalizada).2.historico =
      estadoArquivar.historico ++
        [{ id := reservaFinalizada.id
           ambiente_id := reservaFinalizada.ambiente_id
           nome_amb := ambienteLab.nome
           usuario_id := reservaFinalizada.usuario_id
           nome_usu := usuarioMembro.nome
           data_inicio := reservaFinalizada.data_inicio
           data_fim := reservaFinalizada.data_fim
           data_criacao := reservaFinalizada.data_criacao
           status := reservaFinalizada.status
           motivo := reservaFinalizada.motivo }] :=
  (C6_arquivamento estadoArquivar reservaFinalizada ambienteLab
    usuarioMembro (Or.inr rfl) (by decide) (by decide)).1 (by decide)

/-- C7: at `estadoHistoricoDuplicado` the admin's cancel request reports
failure (500), yet the status commit that preceded the archival survives:
the reservation stays in the active set with the terminal status
`CANCELADA` and no history row is added — the status change and the
archival are not one atomic unit. -/
theorem C7_arquivamento_nao_atomico :
    (atualizar_status_reserva estadoHistoricoDuplicado 1 .CANCELADA
      usuarioAdmin).1 = .erro .interno ∧
    ((atualizar_status_reserva estadoHistoricoDuplicado 1 .CANCELADA
      usuarioAdmin).2.reservas.map (fun r => (r.id, r.status))) =
      [(1, .CANCELADA)] ∧
    (atualizar_status_reserva estadoHistoricoDuplicado 1 .CANCELADA
      usuarioAdmin).2.historico = estadoHistoricoDuplicado.historico ∧
    (atualizar_status_reserva estadoHistoricoDuplicado 1 .CANCELADA
      usuarioAdmin).2 ≠ estadoHistoricoDuplicado := by
  decide

/-- C8.  A field update of an existing reservation is permitted only to
the holder of a `PENDENTE` reservation or to an administrator (otherwise
`Forbidden`, store unchanged); and when the update changes dates or
environment, a blocking overlap on the effective values — excluding the
reservation itself — makes it fail with `Conflict` and no mutation. -/
theorem C8_atualizar_campos_regras (st : SysState) (rid : Nat)
    (ru : ReservaUpdate) (actor : Usuario) (r : Reserva)
    (hfind : st.reservas.find? (fun x => x.id == rid) = some r) :
    (¬((r.usuario_id = actor.id ∧ r.status = .PENDENTE) ∨
        actor.tipo = .admin) →
      atualizar_reserva st rid ru actor = (.erro .proibido, st)) ∧
    (((r.usuario_id = actor.id ∧ r.status = .PENDENTE) ∨
        actor.tipo = .admin) →
      mudouDatasOuAmbiente ru r = true →
      (∃ y ∈ st.reservas, y.id ≠ rid ∧
        y.ambiente_id = novoAmbiente ru r ∧ Bloqueante y ∧
        novoInicio ru r < y.data_fim ∧ y.data_inicio < novoFim ru r) →
      atualizar_reserva st rid ru actor = (.erro .conflito, st)) := by
  obtain ⟨hmem, hrid⟩ := find?_reserva_some hfind
  constructor
  · intro hno
    unfold atualizar_reserva
    split
    · next hnone =>
      rw [hnone] at hfind
      cases hfind
    · next r' hfind' =>
      rw [hfind'] at hfind
      injection hfind with hrr
      subst hrr
      have h1 : ((r'.usuario_id == actor.id &&
          r'.status == StatusReserva.PENDENTE) ||
          actor.tipo == TipoUsuario.admin) = false := by
        cases hb : ((r'.usuario_id == actor.id &&
            r'.status == StatusReserva.PENDENTE) ||
            actor.tipo == TipoUsuario.admin) with
        | false => rfl
        | true =>
          exfalso
          apply hno
          rw [Bool.or_eq_true, Bool.and_eq_true] at hb
          rcases hb with ⟨hb1, hb2⟩ | hb3
          · exact Or.inl ⟨eq_of_beq hb1, eq_of_beq hb2⟩
          · exact Or.inr (eq_of_beq hb3)
      rw [if_pos (by rw [h1]; rfl)]
  · intro hperm hmud hex
    unfold atualizar_reserva
    split
    · next hnone =>
      rw [hnone] at hfind
      cases hfind
    · next r' hfind' =>
      rw [hfind'] at hfind
      injection hfind with hrr
      subst hrr
      have h1 : ((r'.usuario_id == actor.id &&
          r'.status == StatusReserva.PENDENTE) ||
          actor.tipo == TipoUsuario.admin) = true := by
        rcases hperm with ⟨ho, hp⟩ | ha
        · rw [Bool.or_eq_true, Bool.and_eq_true]
          exact Or.inl ⟨by simp [ho], by simp [hp]⟩
        · rw [Bool.or_eq_true]
          exact Or.inr (by simp [ha])
      rw [if_neg (by rw [h1]; simp)]
      have hv : verificar_disponibilidade_ambiente st (novoAmbiente ru r')
          (novoInicio ru r') (novoFim ru r') (some r'.id) = false := by
        cases hv : verificar_disponibilidade_ambiente st (novoAmbiente ru r')
            (novoInicio ru r') (novoFim ru r') (some r'.id) with
        | false => rfl
        | true =>
          exfalso
          rw [verificar_eq_true_iff] at hv
          obtain ⟨y, hy, hyid, hyamb, hybloq, ho1, ho2⟩ := hex
          refine hv.2 y hy hyamb hybloq ?_ ⟨ho1, ho2⟩
          intro e he
          cases he
          rw [hrid]
          exact hyid
      rw [if_pos (by rw [hmud, hv]; rfl)]

/-- Witness for C8's conflict clause at a concrete store. -/
theorem C8_atualizar_campos_regras_testemunha :
    atualizar_reserva estadoDois 0 pedidoMudanca usuarioMembro =
      (.erro .conflito, estadoDois) :=
  (C8_atualizar_campos_regras estadoDois 0 pedidoMudanca usuarioMembro
      reservaPendA (by decide)).2
    (Or.inl ⟨by decide, by decide⟩) (by decide)
    ⟨reservaConfB, by decide, by decide, by decide, by decide, by decide,
      by decide⟩

theorem find?_replaceById_ne {l : List Reserva} {rid : Nat} {r' : Reserva}
    (i : Nat) (hne : i ≠ rid) (hid : r'.id = rid) :
    (replaceById l rid r').find? (fun x => x.id == i) =
      l.find? (fun x => x.id == i) := by
  induction l with
  | nil => rfl
  | cons a t ih =>
    unfold replaceById at ih ⊢
    rw [List.map_cons]
    by_cases hc : (a.id == rid) = true
    · rw [if_pos hc]
      rw [List.find?_cons_of_neg (p := fun x : Reserva => x.id == i) _
        (by simp [hid, Ne.symm hne])]
      rw [List.find?_cons_of_neg (p := fun x : Reserva => x.id == i) _
        (by simp [eq_of_beq hc, Ne.symm hne])]
      exact ih
    · rw [if_neg hc]
      by_cases hai : (a.id == i) = true
      · rw [List.find?_cons_of_pos (p := fun x : Reserva => x.id == i) _ hai,
          List.find?_cons_of_pos (p := fun x : Reserva => x.id == i) _ hai]
      · rw [List.find?_cons_of_neg (p := fun x : Reserva => x.id == i) _ hai,
          List.find?_cons_of_neg (p := fun x : Reserva => x.id == i) _ hai]
        exact ih

theorem find?_replaceById_eq {l : List Reserva} {rid : Nat} {r r' : Reserva}
    (hfind : l.find? (fun x => x.id == rid) = some r) (hid : r'.id = rid) :
    (replaceById l rid r').find? (fun x => x.id == rid) = some r' := by
  induction l with
  | nil => cases hfind
  | cons a t ih =>
    unfold replaceById at ih ⊢
    rw [List.map_cons]
    by_cases hc : (a.id == rid) = true
    · rw [if_pos hc]
      exact List.find?_cons_of_pos (p := fun x : Reserva => x.id == rid) _
        (by simp [hid])
    · rw [if_neg hc]
      rw [List.find?_cons_of_neg (p := fun x : Reserva => x.id == rid) _ hc] at hfind
      rw [List.find?_cons_of_neg (p := fun x : Reserva => x.id == rid) _ hc]
      exact ih hfind

/-- C9.  The non-status field update never changes any reservation's
status: for every input — including payloads carrying a `status` value,
which is silently dropped — the status stored under any id after the
operation equals the status stored under that id before it. -/
theorem C9_status_nunca_muda (st : SysState) (rid : Nat)
    (ru : ReservaUpdate) (actor : Usuario) (i : Nat) :
    ((atualizar_reserva st rid ru actor).2.reservas.find?
      (fun x => x.id == i)).map (fun x => x.status) =
    (st.reservas.find? (fun x => x.id == i)).map (fun x => x.status) := by
  unfold atualizar_reserva
  split
  · rfl
  · next r hfind =>
    split
    · rfl
    · split
      · rfl
      · split
        · rfl
        · obtain ⟨hmem, hrid⟩ := find?_reserva_some hfind
          show ((replaceById st.reservas rid
              { r with
                data_inicio := novoInicio ru r
                data_fim := novoFim ru r
                ambiente_id := novoAmbiente ru r
                motivo := ru.motivo.getD r.motivo }).find?
              (fun x => x.id == i)).map (fun x => x.status) =
            (st.reservas.find? (fun x => x.id == i)).map (fun x => x.status)
          set q : Reserva :=
            { r with
              data_inicio := novoInicio ru r
              data_fim := novoFim ru r
              ambiente_id := novoAmbiente ru r
              motivo := ru.motivo.getD r.motivo } with hq
          have hqid : q.id = rid := hrid
          by_cases hi : i = rid
          · subst hi
            rw [find?_replaceById_eq hfind hqid, hfind]
            rfl
          · rw [find?_replaceById_ne i hi hqid]

/-- C10.  Every user present after a registration either already existed
or has role `user` and active flag `true`: registration can never create
an administrator or an inactive account, whatever the input. -/
theorem C10_registro_sempre_user (hash_password : String → String)
    (st : SysState) (uc : UsuarioCreate) (novo_id : Nat) (now : Int)
    (u : Usuario)
    (hu : u ∈ (criar_usuario hash_password st uc novo_id now).2.usuarios) :
    u ∈ st.usuarios ∨ (u.tipo = .user ∧ u.ativo = true) := by
  unfold criar_usuario at hu
  by_cases hdup : (st.usuarios.any fun x => x.email == uc.email) = true
  · rw [if_pos hdup] at hu
    exact Or.inl hu
  · rw [if_neg hdup] at hu
    rcases List.mem_append.mp hu with ho | hn
    · exact Or.inl ho
    · rw [List.mem_singleton.mp hn]
      exact Or.inr ⟨rfl, rfl⟩

/-- Witness for C10 at a concrete registration. -/
theorem C10_registro_sempre_user_testemunha :
    ({ id := 7, nome := "Novo", email := "novo@ex.com",
       senha_hash := "123456", tipo := .user, ativo := true,
       data_criacao := 3 } : Usuario) ∈ estadoVazio.usuarios ∨
    (({ id := 7, nome := "Novo", email := "novo@ex.com",
        senha_hash := "123456", tipo := .user, ativo := true,
        data_criacao := 3 } : Usuario).tipo = .user ∧
      ({ id := 7, nome := "Novo", email := "novo@ex.com",
         senha_hash := "123456", tipo := .user, ativo := true,
         data_criacao := 3 } : Usuario).ativo = true) :=
  C10_registro_sempre_user (fun s => s) estadoVazio
    { nome := "Novo", email := "novo@ex.com", senha := "123456" } 7 3
    { id := 7, nome := "Novo", email := "novo@ex.com",
      senha_hash := "123456", tipo := .user, ativo := true,
      data_criacao := 3 }
    (by decide)
